import Mathlib

/-!
Shallow embedding of the solvyd CI/CD control plane (api-server) and proofs
about its worker registry, build scheduler, build state machine and worker
protocol surface.

The store is modelled as explicit lists of rows; each handler becomes a pure
function from a store (plus the request and the current time) to an updated
store and an HTTP status code or response.  SQL `UPDATE ... WHERE` statements
become `List.map` with the row predicate; `RETURNING`/`SELECT ... LIMIT 1`
become `List.find?`; `RowsAffected` becomes `List.countP`.  Timestamps are
naturals (seconds); nullable columns are `Option`.
-/

namespace Solvyd

/-- A row of the `workers` table (schema: workers). `lastHeartbeat` is nullable:
a freshly inserted worker has no heartbeat yet. -/
structure WorkerRow where
  id : Nat
  name : String
  hostname : String
  ipAddress : String
  maxConcurrentBuilds : Int
  currentBuilds : Int
  cpuCores : Int
  memoryMB : Int
  labels : List (String × String)
  capabilities : List String
  status : String
  lastHeartbeat : Option Nat
  healthStatus : String
  agentVersion : String
  registeredAt : Nat
  updatedAt : Nat
  deriving DecidableEq

/-- A row of the `builds` table (schema: builds). -/
structure BuildRow where
  id : Nat
  jobId : Nat
  status : String
  queuedAt : Nat
  startedAt : Option Nat
  completedAt : Option Nat
  durationSeconds : Option Int
  workerId : Option Nat
  exitCode : Option Int
  errorMessage : Option String
  updatedAt : Nat
  deriving DecidableEq

/-- A row of the `jobs` table, restricted to the fields the scheduler claims
concern (identity and the worker-label selector `worker_labels`). -/
structure JobRow where
  id : Nat
  name : String
  workerLabels : List (String × String)
  deriving DecidableEq

/-- The durable store shared by all API instances. -/
structure Store where
  workers : List WorkerRow
  builds : List BuildRow
  jobs : List JobRow
  deriving DecidableEq

/-! ## ReportStatus: `UpdateBuildStatus` in handlers/builds.go -/

/-- The JSON body of `PUT /api/v1/builds/{id}/status`. -/
structure StatusReport where
  status : String
  startedAt : Option Nat
  completedAt : Option Nat
  exitCode : Option Int
  errorMessage : Option String
  durationSeconds : Option Int
  deriving DecidableEq

/-- The `validStatuses` map of `UpdateBuildStatus` (handlers/builds.go):
`{"queued": true, "running": true, "success": true, "failure": true,
"cancelled": true}`. -/
def validStatus (s : String) : Bool :=
  s == "queued" || s == "running" || s == "success" || s == "failure" || s == "cancelled"

/-- One optional column of the dynamically built `UPDATE builds SET ...`:
a column is assigned only when the request carries the field. -/
def overrideOpt {α : Type} (new old : Option α) : Option α :=
  match new with
  | some v => some v
  | none => old

/-- Effect of the dynamically built `UPDATE builds SET status = $1,
updated_at = NOW() [, started_at ...] WHERE id = $n` on one matching row. -/
def applyReport (req : StatusReport) (now : Nat) (b : BuildRow) : BuildRow :=
  { b with
      status := req.status
      updatedAt := now
      startedAt := overrideOpt req.startedAt b.startedAt
      completedAt := overrideOpt req.completedAt b.completedAt
      exitCode := overrideOpt req.exitCode b.exitCode
      errorMessage := overrideOpt req.errorMessage b.errorMessage
      durationSeconds := overrideOpt req.durationSeconds b.durationSeconds }

/-- `UpdateBuildStatus` (handlers/builds.go): validates the status value
(400 on failure), then runs the update keyed on the build id alone and
reports 404 when no row was affected, 200 otherwise. -/
def updateBuildStatus (s : Store) (buildId : Nat) (req : StatusReport) (now : Nat) :
    Store × Nat :=
  if !validStatus req.status then (s, 400)
  else
    let affected := s.builds.countP (fun b => b.id == buildId)
    let builds := s.builds.map (fun b => if b.id == buildId then applyReport req now b else b)
    ({ s with builds := builds }, if affected == 0 then 404 else 200)

/-! ## CancelBuild in handlers/builds.go -/

/-- The `status IN ('queued', 'running')` condition of `CancelBuild`. -/
def cancelActive (b : BuildRow) : Bool :=
  b.status == "queued" || b.status == "running"

/-- `CancelBuild` (handlers/builds.go): `UPDATE builds SET status = 'cancelled',
completed_at = CURRENT_TIMESTAMP WHERE id = $1 AND status IN ('queued',
'running')`; 404 when zero rows affected, 200 otherwise. -/
def cancelBuild (s : Store) (buildId : Nat) (now : Nat) : Store × Nat :=
  let affected := s.builds.countP (fun b => b.id == buildId && cancelActive b)
  let builds := s.builds.map (fun b =>
    if b.id == buildId && cancelActive b
    then { b with status := "cancelled", completedAt := some now } else b)
  ({ s with builds := builds }, if affected == 0 then 404 else 200)

/-! ## Scheduler: `assignBuildToWorker` in scheduler/scheduler.go -/

/-- The worker filter of the scheduler's claim query:
`status = 'online' AND current_builds < max_concurrent_builds`. -/
def workerEligible (w : WorkerRow) : Bool :=
  w.status == "online" && w.currentBuilds < w.maxConcurrentBuilds

/-- `ORDER BY current_builds ASC LIMIT 1` over a row list: the first row with
minimal `current_builds` (SQL leaves the order among ties unspecified; list
order stands in for it). -/
def selectMin : List WorkerRow → Option WorkerRow
  | [] => none
  | w :: ws =>
    match selectMin ws with
    | none => some w
    | some best => if w.currentBuilds ≤ best.currentBuilds then some w else some best

/-- The scheduler's worker-claim query (scheduler/scheduler.go): `SELECT id
FROM workers WHERE status = 'online' AND current_builds <
max_concurrent_builds ORDER BY current_builds ASC LIMIT 1 FOR UPDATE SKIP
LOCKED`. -/
def selectWorker (ws : List WorkerRow) : Option WorkerRow :=
  selectMin (ws.filter workerEligible)

/-- `UPDATE workers SET current_builds = current_builds + 1 WHERE id = $1`,
applied to one row. -/
def incWorker (wid : Nat) (w : WorkerRow) : WorkerRow :=
  if w.id == wid then { w with currentBuilds := w.currentBuilds + 1 } else w

/-- `assignBuildToWorker` (scheduler/scheduler.go): pick a worker; run the
conditional build update (`WHERE id = $2 AND status = 'queued'`); then
increment the worker's counter unconditionally — the code never inspects the
build update's `RowsAffected`, and the three statements are separate
auto-committed commands, not one transaction.  `jobId` is accepted but unused,
as in the source. -/
def assignBuildToWorker (s : Store) (buildId jobId : Nat) (now : Nat) : Store :=
  match selectWorker s.workers with
  | none => s
  | some w =>
    let builds := s.builds.map (fun b =>
      if b.id == buildId && b.status == "queued"
      then { b with status := "running", workerId := some w.id, startedAt := some now }
      else b)
    let workers := s.workers.map (incWorker w.id)
    { s with builds := builds, workers := workers }

/-! ## Heartbeat in handlers/workers.go -/

/-- The JSON body of `POST /api/v1/workers/{id}/heartbeat` (cpu/memory usage
fields are decoded but never used by the handler). -/
structure HeartbeatReq where
  currentBuilds : Int
  healthStatus : String
  deriving DecidableEq

/-- The heartbeat response `{status, current_builds, max_builds, has_work}`. -/
structure HeartbeatResp where
  status : String
  currentBuilds : Int
  maxBuilds : Int
  hasWork : Bool
  deriving DecidableEq

/-- Effect of the heartbeat `UPDATE workers SET ...` on the matching row,
including the `CASE WHEN status = 'draining' THEN 'draining' ELSE 'online' END`
rule and the handler's defaulting of an empty health status to "healthy". -/
def heartbeatUpdate (req : HeartbeatReq) (now : Nat) (w : WorkerRow) : WorkerRow :=
  { w with
      lastHeartbeat := some now
      currentBuilds := req.currentBuilds
      healthStatus := if req.healthStatus == "" then "healthy" else req.healthStatus
      status := if w.status == "draining" then "draining" else "online"
      updatedAt := now }

/-- The handler's `SELECT EXISTS(SELECT 1 FROM builds WHERE worker_id = $1 AND
status = 'queued')`. -/
def hasQueuedBuild (builds : List BuildRow) (wid : Nat) : Bool :=
  builds.any (fun b => b.workerId == some wid && b.status == "queued")

/-- `Heartbeat` (handlers/workers.go): run the update with `RETURNING status,
current_builds, max_concurrent_builds` (none on a missing worker = 404), then
compute `has_work` only when the returned row is online with spare capacity. -/
def heartbeat (s : Store) (wid : Nat) (req : HeartbeatReq) (now : Nat) :
    Store × Option HeartbeatResp :=
  match (s.workers.map (fun w => if w.id == wid then heartbeatUpdate req now w else w)).find?
      (fun w => w.id == wid) with
  | none =>
    ({ s with workers := s.workers.map (fun w =>
        if w.id == wid then heartbeatUpdate req now w else w) }, none)
  | some w =>
    ({ s with workers := s.workers.map (fun ww =>
        if ww.id == wid then heartbeatUpdate req now ww else ww) },
     some ⟨w.status, w.currentBuilds, w.maxConcurrentBuilds,
           if w.currentBuilds < w.maxConcurrentBuilds && w.status == "online"
           then hasQueuedBuild s.builds wid
           else false⟩)

/-! ## RegisterWorker in handlers/workers.go -/

/-- The JSON body of `POST /api/v1/workers/register`. -/
structure RegisterReq where
  name : String
  hostname : String
  ipAddress : String
  maxConcurrentBuilds : Int
  cpuCores : Int
  memoryMB : Int
  labels : List (String × String)
  capabilities : List String
  agentVersion : String
  deriving DecidableEq

/-- The `ON CONFLICT (name) DO UPDATE SET ...` branch of `RegisterWorker`:
every request attribute is refreshed, `status` is forced to online and
`last_heartbeat` bumped; `registered_at`, `current_builds` and
`health_status` are left as they were. -/
def refreshWorker (req : RegisterReq) (maxB : Int) (now : Nat) (w : WorkerRow) : WorkerRow :=
  { w with
      hostname := req.hostname
      ipAddress := req.ipAddress
      maxConcurrentBuilds := maxB
      cpuCores := req.cpuCores
      memoryMB := req.memoryMB
      labels := req.labels
      capabilities := req.capabilities
      agentVersion := req.agentVersion
      status := "online"
      lastHeartbeat := some now
      updatedAt := now }

/-- The `INSERT` branch of `RegisterWorker`: unlisted columns take their schema
defaults (`current_builds` 0, `last_heartbeat` NULL, `registered_at` now). -/
def newWorker (req : RegisterReq) (maxB : Int) (freshId : Nat) (now : Nat) : WorkerRow :=
  { id := freshId
    name := req.name
    hostname := req.hostname
    ipAddress := req.ipAddress
    maxConcurrentBuilds := maxB
    currentBuilds := 0
    cpuCores := req.cpuCores
    memoryMB := req.memoryMB
    labels := req.labels
    capabilities := req.capabilities
    status := "online"
    lastHeartbeat := none
    healthStatus := "healthy"
    agentVersion := req.agentVersion
    registeredAt := now
    updatedAt := now }

/-- The handler's defaulting of a non-positive requested capacity to 2. -/
def defaultedMax (req : RegisterReq) : Int :=
  if req.maxConcurrentBuilds ≤ 0 then 2 else req.maxConcurrentBuilds

/-- `RegisterWorker` (handlers/workers.go): reject an empty name (400 = none),
substitute the default capacity 2 when `max_concurrent_builds <= 0`, then
upsert keyed by name and return `(id, registered_at)` of the canonical row. -/
def registerWorker (s : Store) (req : RegisterReq) (freshId : Nat) (now : Nat) :
    Store × Option (Nat × Nat) :=
  if req.name == "" then (s, none)
  else
    match s.workers.find? (fun w => w.name == req.name) with
    | some w =>
      ({ s with workers := s.workers.map (fun ww =>
          if ww.name == req.name then refreshWorker req (defaultedMax req) now ww else ww) },
       some (w.id, w.registeredAt))
    | none =>
      ({ s with workers := s.workers ++ [newWorker req (defaultedMax req) freshId now] },
       some (freshId, now))

/-! ## Reaper: `checkWorkerHealth` in worker/manager.go -/

/-- The `last_heartbeat < CURRENT_TIMESTAMP - INTERVAL '2 minutes'` condition;
a NULL heartbeat compares as false, as in SQL. -/
def staleHeartbeat (now : Nat) (lastHb : Option Nat) : Bool :=
  match lastHb with
  | none => false
  | some t => t + 120 < now

/-- Effect of the reaper update on one row: only rows with `status = 'online'`
and a stale heartbeat are touched. -/
def reapWorker (now : Nat) (w : WorkerRow) : WorkerRow :=
  if w.status == "online" && staleHeartbeat now w.lastHeartbeat
  then { w with status := "offline", healthStatus := "unhealthy" }
  else w

/-- `checkWorkerHealth` (worker/manager.go): `UPDATE workers SET status =
'offline', health_status = 'unhealthy' WHERE status = 'online' AND
last_heartbeat < CURRENT_TIMESTAMP - INTERVAL '2 minutes'`. -/
def checkWorkerHealth (s : Store) (now : Nat) : Store :=
  { s with workers := s.workers.map (reapWorker now) }

/-! ## Derived observations used by the claims -/

/-- Sum over workers of the denormalized `current_builds` counter. -/
def sumCurrentBuilds (s : Store) : Int :=
  (s.workers.map (fun w => w.currentBuilds)).sum

/-- Number of builds whose status is `running`. -/
def countRunning (s : Store) : Nat :=
  s.builds.countP (fun b => b.status == "running")

/-- First worker row with the given id (ids are a primary key). -/
def findWorker (s : Store) (wid : Nat) : Option WorkerRow :=
  s.workers.find? (fun w => w.id == wid)

/-- First build row with the given id (ids are a primary key). -/
def findBuild (s : Store) (bid : Nat) : Option BuildRow :=
  s.builds.find? (fun b => b.id == bid)

/-- Modelled from the spec: the job's worker-label selector match, which the
source's `assignBuildToWorker` never performs.  A worker matches when its
labels contain every key/value pair of the selector. -/
def labelsMatch (selector workerLabels : List (String × String)) : Bool :=
  selector.all (fun kv => workerLabels.contains kv)

/-! ## Concrete fixtures -/

/-- A queued build owned by job 1, not yet assigned. -/
def bQueued : BuildRow :=
  { id := 1, jobId := 1, status := "queued", queuedAt := 0, startedAt := none,
    completedAt := none, durationSeconds := none, workerId := none,
    exitCode := none, errorMessage := none, updatedAt := 0 }

/-- Build 1 running on worker 1. -/
def bRunningOn1 : BuildRow :=
  { bQueued with status := "running", workerId := some 1, startedAt := some 1 }

/-- An online worker with free capacity and no labels. -/
def wOnline : WorkerRow :=
  { id := 1, name := "w1", hostname := "h1", ipAddress := "10.0.0.1",
    maxConcurrentBuilds := 2, currentBuilds := 0, cpuCores := 4, memoryMB := 8192,
    labels := [], capabilities := ["docker"], status := "online",
    lastHeartbeat := some 0, healthStatus := "healthy", agentVersion := "1.0.0",
    registeredAt := 0, updatedAt := 0 }

/-- A draining worker whose last heartbeat is long past. -/
def wDrainingStale : WorkerRow :=
  { wOnline with status := "draining", lastHeartbeat := some 0 }

/-- A job whose worker-label selector demands `os=linux`. -/
def jLinux : JobRow := { id := 1, name := "j1", workerLabels := [("os", "linux")] }

/-- A status report announcing success, carrying no timestamps. -/
def repSuccess : StatusReport :=
  { status := "success", startedAt := none, completedAt := none,
    exitCode := some 0, errorMessage := none, durationSeconds := some 12 }

/-- A status report announcing timeout. -/
def repTimeout : StatusReport :=
  { status := "timeout", startedAt := none, completedAt := none,
    exitCode := none, errorMessage := none, durationSeconds := none }

/-- A success report carrying no timestamp fields at all. -/
def repSuccessBare : StatusReport :=
  { status := "success", startedAt := none, completedAt := none,
    exitCode := none, errorMessage := none, durationSeconds := none }

/-- Build 1 queued and pre-assigned to worker 1. -/
def bQueuedOn1 : BuildRow := { bQueued with workerId := some 1 }

/-- A registration request for worker name `w1`. -/
def rqW1 : RegisterReq :=
  { name := "w1", hostname := "h1", ipAddress := "10.0.0.1",
    maxConcurrentBuilds := 2, cpuCores := 4, memoryMB := 8192,
    labels := [], capabilities := ["docker"], agentVersion := "1.0.0" }

/-! ## Counterexamples for the corrected claims -/

/-- C1 counterexample: with build 1 in status `queued`, reporting `success`
(a transition on no edge of the §4.4 state machine) is accepted with 200 and
rewrites the row — the handler performs no conditional update on the prior
status and never answers CONFLICT. -/
theorem reportStatus_queued_to_success_accepted :
    (updateBuildStatus ⟨[], [bQueued], []⟩ 1 repSuccess 5).2 = 200 ∧
    ((updateBuildStatus ⟨[], [bQueued], []⟩ 1 repSuccess 5).1.builds.map
      (fun b => b.status)) = ["success"] := by
  constructor <;> rfl

/-- C2 counterexample: build 1 transitions `running → success` while its
worker holds `current_builds = 1`; afterwards the build is terminal with
`completed_at` still NULL (the report carried none), the worker row is
untouched, and the sum of counters (1) differs from the number of running
builds (0). -/
theorem terminal_transition_no_decrement_cex :
    (updateBuildStatus ⟨[{ wOnline with currentBuilds := 1 }], [bRunningOn1], []⟩ 1
        ⟨"success", none, none, some 0, none, none⟩ 9).2 = 200 ∧
    ((updateBuildStatus ⟨[{ wOnline with currentBuilds := 1 }], [bRunningOn1], []⟩ 1
        ⟨"success", none, none, some 0, none, none⟩ 9).1.builds.map
      (fun b => (b.status, b.completedAt))) = [("success", none)] ∧
    (updateBuildStatus ⟨[{ wOnline with currentBuilds := 1 }], [bRunningOn1], []⟩ 1
        ⟨"success", none, none, some 0, none, none⟩ 9).1.workers
      = [{ wOnline with currentBuilds := 1 }] ∧
    sumCurrentBuilds (updateBuildStatus ⟨[{ wOnline with currentBuilds := 1 }],
        [bRunningOn1], []⟩ 1 ⟨"success", none, none, some 0, none, none⟩ 9).1 = 1 ∧
    countRunning (updateBuildStatus ⟨[{ wOnline with currentBuilds := 1 }],
        [bRunningOn1], []⟩ 1 ⟨"success", none, none, some 0, none, none⟩ 9).1 = 0 := by
  refine ⟨rfl, rfl, rfl, rfl, rfl⟩

/-- C3 counterexample: build 1 is already `running` (another scheduler won the
race), yet `assignBuildToWorker` still increments the claimed worker's
counter and never reverses it — the build rows come back unchanged while the
worker's `current_builds` rises from 0 to 1. -/
theorem scheduler_lost_race_counter_cex :
    (assignBuildToWorker ⟨[wOnline], [bRunningOn1], []⟩ 1 1 5).builds
      = [bRunningOn1] ∧
    ((assignBuildToWorker ⟨[wOnline], [bRunningOn1], []⟩ 1 1 5).workers.map
      (fun w => w.currentBuilds)) = [1] := by
  constructor <;> rfl

/-- C4 counterexample: job 1 demands `os=linux` and the only worker carries no
labels, so the claimed eligible set is empty — yet the scheduler assigns the
build to that worker anyway instead of leaving it queued. -/
theorem scheduler_ignores_label_selector_cex :
    labelsMatch jLinux.workerLabels wOnline.labels = false ∧
    ((assignBuildToWorker ⟨[wOnline], [bQueued], [jLinux]⟩ 1 1 5).builds.map
      (fun b => (b.status, b.workerId))) = [("running", some 1)] := by
  constructor <;> rfl

/-- C5 counterexample: a report carrying status `timeout` on an existing build
is rejected with 400 as an unknown status value, and the store is unchanged —
`timeout` is missing from the handler's `validStatuses` set. -/
theorem timeout_status_rejected_cex :
    (updateBuildStatus ⟨[], [bRunningOn1], []⟩ 1 repTimeout 5).2 = 400 ∧
    (updateBuildStatus ⟨[], [bRunningOn1], []⟩ 1 repTimeout 5).1
      = ⟨[], [bRunningOn1], []⟩ := by
  constructor <;> rfl

/-- C6 counterexample: a `draining` worker whose heartbeat is 1000 seconds
stale is left entirely untouched by the reaper — the update only matches
`status = 'online'`, so the `draining → offline` edge is never taken. -/
theorem reaper_skips_stale_draining_cex :
    staleHeartbeat 1000 wDrainingStale.lastHeartbeat = true ∧
    checkWorkerHealth ⟨[wDrainingStale], [], []⟩ 1000 = ⟨[wDrainingStale], [], []⟩ := by
  constructor <;> rfl

/-! ## List lemmas about conditional row updates -/

/-- A keyed row update tracked through `find?`: updating exactly the rows
matching `p` keeps `find? p` pointing at the (updated) first match, provided
the update preserves the key. -/
theorem find_condMap {α : Type} (p : α → Bool) (f : α → α)
    (hf : ∀ a, p a = true → p (f a) = true) :
    ∀ l : List α, (l.map (fun a => if p a then f a else a)).find? p = (l.find? p).map f := by
  intro l
  induction l with
  | nil => rfl
  | cons a t ih =>
    by_cases h : p a = true
    · rw [List.map_cons, if_pos h, List.find?_cons_of_pos _ (hf a h),
        List.find?_cons_of_pos _ h]
      rfl
    · rw [List.map_cons, if_neg h, List.find?_cons_of_neg _ h,
        List.find?_cons_of_neg _ h]
      exact ih

/-- A keyed row update leaves the number of matching rows unchanged when the
update preserves the key. -/
theorem countP_condMap {α : Type} (p : α → Bool) (f : α → α)
    (hf : ∀ a, p a = true → p (f a) = true) :
    ∀ l : List α, (l.map (fun a => if p a then f a else a)).countP p = l.countP p := by
  intro l
  induction l with
  | nil => rfl
  | cons a t ih =>
    by_cases h : p a = true
    · rw [List.map_cons, if_pos h]
      rw [List.countP_cons, List.countP_cons, ih, hf a h, h]
    · have hb : p a = false := by simpa using h
      rw [List.map_cons, if_neg h]
      rw [List.countP_cons, List.countP_cons, ih, hb]

/-- Searching past a prefix with no match. -/
theorem find_append_none {α : Type} (p : α → Bool) :
    ∀ (l1 l2 : List α), l1.find? p = none → (l1 ++ l2).find? p = l2.find? p := by
  intro l1
  induction l1 with
  | nil => intro l2 _; rfl
  | cons a t ih =>
    intro l2 h
    by_cases ha : p a = true
    · rw [List.find?_cons_of_pos _ ha] at h
      exact absurd h (by simp)
    · rw [List.find?_cons_of_neg _ ha] at h
      rw [List.cons_append, List.find?_cons_of_neg _ ha]
      exact ih l2 h

/-- An update that fixes every member is the identity on the list. -/
theorem map_id_of_mem {α : Type} (f : α → α) :
    ∀ l : List α, (∀ a ∈ l, f a = a) → l.map f = l := by
  intro l
  induction l with
  | nil => intro _; rfl
  | cons a t ih =>
    intro h
    rw [List.map_cons, h a (by simp), ih (fun x hx => h x (by simp [hx]))]

/-! ## Lemmas about the scheduler's worker choice -/

/-- `selectMin` returns nothing only on the empty row set. -/
theorem selectMin_eq_none : ∀ (l : List WorkerRow), selectMin l = none ↔ l = [] := by
  intro l
  cases l with
  | nil => simp [selectMin]
  | cons a t =>
    simp only [selectMin]
    cases selectMin t with
    | none => simp
    | some best =>
      by_cases hc : a.currentBuilds ≤ best.currentBuilds
      · simp [hc]
      · simp [hc]

/-- The row `selectMin` picks is one of the rows. -/
theorem selectMin_mem : ∀ (l : List WorkerRow) (w : WorkerRow),
    selectMin l = some w → w ∈ l := by
  intro l
  induction l with
  | nil => intro w h; exact absurd h (by simp [selectMin])
  | cons a t ih =>
    intro w h
    unfold selectMin at h
    cases ht : selectMin t with
    | none =>
      simp only [ht, Option.some.injEq] at h
      subst h
      exact List.mem_cons_self a t
    | some best =>
      simp only [ht] at h
      by_cases hc : a.currentBuilds ≤ best.currentBuilds
      · rw [if_pos hc] at h
        simp only [Option.some.injEq] at h
        subst h
        exact List.mem_cons_self a t
      · rw [if_neg hc] at h
        simp only [Option.some.injEq] at h
        subst h
        exact List.mem_cons_of_mem a (ih best ht)

/-- The row `selectMin` picks carries a minimal `current_builds`. -/
theorem selectMin_le : ∀ (l : List WorkerRow) (w : WorkerRow), selectMin l = some w →
    ∀ x ∈ l, w.currentBuilds ≤ x.currentBuilds := by
  intro l
  induction l with
  | nil => intro w h; exact absurd h (by simp [selectMin])
  | cons a t ih =>
    intro w h x hx
    unfold selectMin at h
    cases ht : selectMin t with
    | none =>
      simp only [ht, Option.some.injEq] at h
      subst h
      have ht2 : t = [] := (selectMin_eq_none t).mp ht
      subst ht2
      rcases List.mem_cons.mp hx with rfl | hxt
      · exact le_refl _
      · exact absurd hxt (by simp)
    | some best =>
      simp only [ht] at h
      rcases List.mem_cons.mp hx with rfl | hxt
      · by_cases hc : x.currentBuilds ≤ best.currentBuilds
        · rw [if_pos hc] at h
          simp only [Option.some.injEq] at h
          subst h
          exact le_refl _
        · rw [if_neg hc] at h
          simp only [Option.some.injEq] at h
          subst h
          omega
      · by_cases hc : a.currentBuilds ≤ best.currentBuilds
        · rw [if_pos hc] at h
          simp only [Option.some.injEq] at h
          subst h
          exact le_trans hc (ih best ht x hxt)
        · rw [if_neg hc] at h
          simp only [Option.some.injEq] at h
          subst h
          exact ih best ht x hxt

/-- Incrementing the counter of the rows with a given id never lowers the
counter sum. -/
theorem sum_incWorker_ge (wid : Nat) :
    ∀ l : List WorkerRow,
      ((l.map (incWorker wid)).map (fun w => w.currentBuilds)).sum
        ≥ (l.map (fun w => w.currentBuilds)).sum := by
  intro l
  induction l with
  | nil => simp
  | cons a t ih =>
    simp only [List.map_cons, List.sum_cons]
    have ha : (incWorker wid a).currentBuilds ≥ a.currentBuilds := by
      unfold incWorker
      by_cases h : (a.id == wid) = true
      · rw [if_pos h]
        show a.currentBuilds + 1 ≥ a.currentBuilds
        omega
      · rw [if_neg h]
    omega

/-- Incrementing the counter of the rows with an id that occurs in the list
strictly raises the counter sum. -/
theorem sum_incWorker_gt (wid : Nat) :
    ∀ l : List WorkerRow, (∃ w ∈ l, w.id = wid) →
      ((l.map (incWorker wid)).map (fun w => w.currentBuilds)).sum
        > (l.map (fun w => w.currentBuilds)).sum := by
  intro l
  induction l with
  | nil => intro h; simp at h
  | cons a t ih =>
    intro h
    simp only [List.map_cons, List.sum_cons]
    rcases h with ⟨w, hw, hid⟩
    rcases List.mem_cons.mp hw with rfl | hwt
    · have ha : (incWorker wid w).currentBuilds = w.currentBuilds + 1 := by
        unfold incWorker
        rw [if_pos (by simp [hid])]
      have ht := sum_incWorker_ge wid t
      omega
    · have ha : (incWorker wid a).currentBuilds ≥ a.currentBuilds := by
        unfold incWorker
        by_cases h2 : (a.id == wid) = true
        · rw [if_pos h2]
          show a.currentBuilds + 1 ≥ a.currentBuilds
          omega
        · rw [if_neg h2]
      have ht := ih ⟨w, hwt, hid⟩
      omega

/-- Pointwise-equal functions map lists equally. -/
theorem map_ext {α β : Type} (f g : α → β) (h : ∀ a, f a = g a) :
    ∀ l : List α, l.map f = l.map g := by
  intro l
  rw [funext h]

/-! ## The claims -/

/-- C1 (amended): `UpdateBuildStatus` performs no conditional update on the
prior status and never answers CONFLICT.  For any status value in the accepted
set, the update is applied keyed on the build id alone: it succeeds with 200
whenever a row with that id exists — whatever the prior status, including
transitions out of terminal states — it rewrites every matching row, and a
repeated identical report succeeds again with 200. -/
theorem reportStatus_no_cas (s : Store) (bid : Nat) (req : StatusReport) (now now2 : Nat)
    (hv : validStatus req.status = true)
    (hex : s.builds.countP (fun b => b.id == bid) ≠ 0) :
    (updateBuildStatus s bid req now).2 = 200 ∧
    (updateBuildStatus s bid req now).1.builds
      = s.builds.map (fun b => if b.id == bid then applyReport req now b else b) ∧
    (updateBuildStatus (updateBuildStatus s bid req now).1 bid req now2).2 = 200 := by
  have hkey : ∀ a : BuildRow, ((a.id == bid) = true) → (((applyReport req now a).id == bid) = true) :=
    fun a ha => ha
  have h1 : (updateBuildStatus s bid req now).1.builds
      = s.builds.map (fun b => if b.id == bid then applyReport req now b else b) := by
    unfold updateBuildStatus
    simp [hv]
  refine ⟨?_, h1, ?_⟩
  · unfold updateBuildStatus
    simp [hv, hex]
  · have hcount : (updateBuildStatus s bid req now).1.builds.countP (fun b => b.id == bid)
        = s.builds.countP (fun b => b.id == bid) := by
      rw [h1]
      exact countP_condMap _ _ hkey s.builds
    generalize hS : (updateBuildStatus s bid req now).1 = S1 at hcount
    unfold updateBuildStatus
    simp [hv, hcount, hex]

/-- C1 witness: the no-CAS theorem applied to a store holding the queued
build 1 and a success report. -/
theorem reportStatus_no_cas_witness :
    (updateBuildStatus ⟨[], [bQueued], []⟩ 1 repSuccess 5).2 = 200 :=
  (reportStatus_no_cas ⟨[], [bQueued], []⟩ 1 repSuccess 5 6 rfl (by decide)).1

/-- C2 (amended): a status report — terminal or not — never adjusts any
worker's `current_builds` and sets `completed_at` only when the report itself
carries one, and `CancelBuild` never adjusts a counter either: the spec's
worker-counter decrement on terminal transitions does not exist in the code,
so these operations do not maintain the counters-equal-running-builds
balance. -/
theorem terminal_report_leaves_counters (s : Store) (bid cid : Nat)
    (req : StatusReport) (now now2 : Nat) (hc : req.completedAt = none) :
    (updateBuildStatus s bid req now).1.workers = s.workers ∧
    ((updateBuildStatus s bid req now).1.builds.map (fun b => b.completedAt))
      = s.builds.map (fun b => b.completedAt) ∧
    (cancelBuild s cid now2).1.workers = s.workers := by
  refine ⟨?_, ?_, ?_⟩
  · unfold updateBuildStatus
    by_cases hv : validStatus req.status = true
    · simp [hv]
    · simp [hv]
  · unfold updateBuildStatus
    by_cases hv : validStatus req.status = true
    · simp only [hv, Bool.not_true, Bool.false_eq_true, if_false]
      rw [List.map_map]
      apply map_ext
      intro b
      by_cases hb : (b.id == bid) = true
      · show (if (b.id == bid) = true then applyReport req now b else b).completedAt
          = b.completedAt
        rw [if_pos hb]
        show overrideOpt req.completedAt b.completedAt = b.completedAt
        rw [hc]
        rfl
      · show (if (b.id == bid) = true then applyReport req now b else b).completedAt
          = b.completedAt
        rw [if_neg hb]
    · simp [hv]
  · rfl

/-- C2 witness: a bare success report on a running build leaves the single
worker row untouched. -/
theorem terminal_report_leaves_counters_witness :
    (updateBuildStatus ⟨[wOnline], [bRunningOn1], []⟩ 1 repSuccessBare 9).1.workers
      = [wOnline] :=
  (terminal_report_leaves_counters ⟨[wOnline], [bRunningOn1], []⟩ 1 1 repSuccessBare 9 9 rfl).1

/-- C3 (amended): the scheduler's counter increment is a separate statement
performed whether or not the conditional build update matched any row: when no
queued row with the target id exists (the race was lost), the build rows come
back unchanged while the claimed worker's counter is still incremented and
never reversed, so the total of `current_builds` strictly grows without any
build having been assigned. -/
theorem scheduler_orphan_counter (s : Store) (bid jid now : Nat) (w : WorkerRow)
    (hw : selectWorker s.workers = some w)
    (hq : ∀ b ∈ s.builds, ¬(b.id = bid ∧ b.status = "queued")) :
    (assignBuildToWorker s bid jid now).builds = s.builds ∧
    sumCurrentBuilds (assignBuildToWorker s bid jid now) > sumCurrentBuilds s := by
  have hmem : w ∈ s.workers := List.mem_of_mem_filter (selectMin_mem _ _ hw)
  have hassign : assignBuildToWorker s bid jid now
      = { s with
            builds := s.builds.map (fun b =>
              if b.id == bid && b.status == "queued"
              then { b with status := "running", workerId := some w.id,
                            startedAt := some now }
              else b),
            workers := s.workers.map (incWorker w.id) } := by
    unfold assignBuildToWorker
    rw [hw]
  have hbuilds : s.builds.map (fun b =>
      if b.id == bid && b.status == "queued"
      then { b with status := "running", workerId := some w.id, startedAt := some now }
      else b) = s.builds := by
    apply map_id_of_mem
    intro b hb
    have hfalse : ¬((b.id == bid && b.status == "queued") = true) := by
      intro hcontra
      rw [Bool.and_eq_true] at hcontra
      exact hq b hb ⟨by simpa using hcontra.1, by simpa using hcontra.2⟩
    rw [if_neg hfalse]
  constructor
  · rw [hassign]
    exact hbuilds
  · rw [hassign]
    unfold sumCurrentBuilds
    exact sum_incWorker_gt w.id s.workers ⟨w, hmem, rfl⟩

/-- C3 witness: with worker 1 free and build 1 already running, the orphan
counter theorem applies and the counter sum rises from 0. -/
theorem scheduler_orphan_counter_witness :
    sumCurrentBuilds (assignBuildToWorker ⟨[wOnline], [bRunningOn1], []⟩ 1 1 5)
      > sumCurrentBuilds ⟨[wOnline], [bRunningOn1], []⟩ :=
  (scheduler_orphan_counter ⟨[wOnline], [bRunningOn1], []⟩ 1 1 5 wOnline rfl
    (by decide)).2

/-- C5 (amended): the status value of a ReportStatus request is rejected as
invalid input (400) iff it lies outside {queued, running, success, failure,
cancelled}; a report carrying status `timeout` is therefore rejected as an
unknown status value. -/
theorem status_validation_domain (s : Store) (bid now : Nat) (req : StatusReport) :
    (updateBuildStatus s bid req now).2 = 400 ↔
      ¬(req.status = "queued" ∨ req.status = "running" ∨ req.status = "success" ∨
        req.status = "failure" ∨ req.status = "cancelled") := by
  have hval : validStatus req.status = true ↔
      (req.status = "queued" ∨ req.status = "running" ∨ req.status = "success" ∨
       req.status = "failure" ∨ req.status = "cancelled") := by
    simp only [validStatus, Bool.or_eq_true, beq_iff_eq]
    tauto
  by_cases hv : validStatus req.status = true
  · have h400 : (updateBuildStatus s bid req now).2 ≠ 400 := by
      unfold updateBuildStatus
      rw [hv]
      simp only [Bool.not_true, Bool.false_eq_true, if_false]
      split <;> simp
    constructor
    · intro h
      exact (h400 h).elim
    · intro h
      exact absurd (hval.mp hv) h
  · have hvf : validStatus req.status = false := by
      simpa using hv
    have h400 : (updateBuildStatus s bid req now).2 = 400 := by
      unfold updateBuildStatus
      rw [hvf]
      simp
    constructor
    · intro _ hd
      rw [hval.mpr hd] at hvf
      exact absurd hvf (by simp)
    · intro _
      exact h400

/-- C4 (amended): the scheduler selects from exactly the workers with
`status='online'` and `current_builds < max_concurrent_builds`, by ascending
`current_builds` alone — the job's worker-label selector and `last_heartbeat`
play no part in the query — and a queued build is left unassigned exactly when
no online worker has spare capacity. -/
theorem scheduler_selects_least_loaded_online (s : Store) (bid jid now : Nat) :
    (∀ w : WorkerRow, selectWorker s.workers = some w →
      w ∈ s.workers ∧ w.status = "online" ∧
      w.currentBuilds < w.maxConcurrentBuilds ∧
      ∀ x ∈ s.workers, x.status = "online" → x.currentBuilds < x.maxConcurrentBuilds →
        w.currentBuilds ≤ x.currentBuilds) ∧
    (selectWorker s.workers = none ↔
      ∀ w ∈ s.workers, ¬(w.status = "online" ∧ w.currentBuilds < w.maxConcurrentBuilds)) ∧
    (selectWorker s.workers = none → assignBuildToWorker s bid jid now = s) := by
  refine ⟨?_, ?_, ?_⟩
  · intro w hw
    have hmemf : w ∈ s.workers.filter workerEligible := selectMin_mem _ _ hw
    have hmem : w ∈ s.workers := List.mem_of_mem_filter hmemf
    have helig : workerEligible w = true := List.of_mem_filter hmemf
    rw [workerEligible, Bool.and_eq_true] at helig
    refine ⟨hmem, by simpa using helig.1, by simpa using helig.2, ?_⟩
    intro x hx hxs hxc
    have hxf : x ∈ s.workers.filter workerEligible := by
      rw [List.mem_filter]
      exact ⟨hx, by simp [workerEligible, hxs, hxc]⟩
    exact selectMin_le _ _ hw x hxf
  · rw [selectWorker, selectMin_eq_none, List.filter_eq_nil]
    constructor
    · intro h w hw hcon
      exact h w hw (by simp [workerEligible, hcon.1, hcon.2])
    · intro h w hw hcon
      apply h w hw
      rw [workerEligible, Bool.and_eq_true] at hcon
      exact ⟨by simpa using hcon.1, by simpa using hcon.2⟩
  · intro h
    unfold assignBuildToWorker
    rw [h]

/-- C4 witness: the selection theorem applied to a one-worker store. -/
theorem scheduler_selects_least_loaded_online_witness :
    wOnline ∈ (Store.mk [wOnline] [bQueued] [jLinux]).workers
      ∧ wOnline.status = "online" := by
  have h := (scheduler_selects_least_loaded_online ⟨[wOnline], [bQueued], [jLinux]⟩
    1 1 5).1 wOnline rfl
  exact ⟨h.1, h.2.1⟩

/-- C6 (amended): on each reaper tick exactly the workers with
`status='online'` and a stale heartbeat are touched — each such row is set
offline/unhealthy and nothing else on it changes — while every other worker,
including a stale `draining` one and every worker with a fresh heartbeat, is
left exactly as it was. -/
theorem reaper_touches_exactly_stale_online (s : Store) (now : Nat) (i : Nat)
    (h1 : i < s.workers.length) (h2 : i < (checkWorkerHealth s now).workers.length) :
    (checkWorkerHealth s now).workers.get ⟨i, h2⟩ =
      if (s.workers.get ⟨i, h1⟩).status = "online" ∧
         staleHeartbeat now (s.workers.get ⟨i, h1⟩).lastHeartbeat = true
      then { s.workers.get ⟨i, h1⟩ with status := "offline", healthStatus := "unhealthy" }
      else s.workers.get ⟨i, h1⟩ := by
  have hget : (checkWorkerHealth s now).workers.get ⟨i, h2⟩
      = reapWorker now (s.workers.get ⟨i, h1⟩) := by
    show (s.workers.map (reapWorker now)).get ⟨i, h2⟩ = reapWorker now (s.workers.get ⟨i, h1⟩)
    simp [List.get_map]
  rw [hget]
  unfold reapWorker
  by_cases hc : ((s.workers.get ⟨i, h1⟩).status == "online"
      && staleHeartbeat now (s.workers.get ⟨i, h1⟩).lastHeartbeat) = true
  · have hcprop : (s.workers.get ⟨i, h1⟩).status = "online" ∧
        staleHeartbeat now (s.workers.get ⟨i, h1⟩).lastHeartbeat = true := by
      have hc2 := hc
      rw [Bool.and_eq_true] at hc2
      exact ⟨by simpa using hc2.1, hc2.2⟩
    rw [if_pos hc, if_pos hcprop]
  · have hnprop : ¬((s.workers.get ⟨i, h1⟩).status = "online" ∧
        staleHeartbeat now (s.workers.get ⟨i, h1⟩).lastHeartbeat = true) := by
      intro hcon
      exact hc (by rw [Bool.and_eq_true]; exact ⟨beq_iff_eq.mpr hcon.1, hcon.2⟩)
    rw [if_neg hc, if_neg hnprop]

/-- C6 witness: an online worker with a heartbeat 1000 seconds old is reaped
to offline/unhealthy. -/
theorem reaper_touches_exactly_stale_online_witness :
    (checkWorkerHealth ⟨[wOnline], [], []⟩ 1000).workers.get ⟨0, by decide⟩
      = { wOnline with status := "offline", healthStatus := "unhealthy" } := by
  have h := reaper_touches_exactly_stale_online ⟨[wOnline], [], []⟩ 1000 0
    (by decide) (by decide)
  rw [h, if_pos ⟨rfl, rfl⟩]
  rfl

/-- Characterization of a Heartbeat on an existing worker: the row update and
the response built from the `RETURNING` values. -/
theorem heartbeat_unfold (s : Store) (wid : Nat) (req : HeartbeatReq) (now : Nat)
    (w : WorkerRow) (hw : findWorker s wid = some w) :
    heartbeat s wid req now =
      ({ s with workers := s.workers.map (fun a =>
           if a.id == wid then heartbeatUpdate req now a else a) },
       some ⟨(heartbeatUpdate req now w).status,
             (heartbeatUpdate req now w).currentBuilds,
             (heartbeatUpdate req now w).maxConcurrentBuilds,
             if (heartbeatUpdate req now w).currentBuilds
                  < (heartbeatUpdate req now w).maxConcurrentBuilds
                && (heartbeatUpdate req now w).status == "online"
             then hasQueuedBuild s.builds wid else false⟩) := by
  unfold findWorker at hw
  have hfind := find_condMap (fun a => a.id == wid) (heartbeatUpdate req now)
    (fun a ha => ha) s.workers
  rw [hw] at hfind
  have hfind2 : (s.workers.map (fun a =>
      if a.id == wid then heartbeatUpdate req now a else a)).find? (fun a => a.id == wid)
      = some (heartbeatUpdate req now w) := hfind
  unfold heartbeat
  rw [hfind2]

/-- C7 (confirmed): for a Heartbeat on an existing worker, both the stored and
the returned status are `draining` when the row was `draining` before the
update and `online` in every other case — an offline (reaped) worker comes
back online, a draining worker never does. -/
theorem heartbeat_preserves_draining (s : Store) (wid : Nat) (req : HeartbeatReq)
    (now : Nat) (w : WorkerRow) (hw : findWorker s wid = some w) :
    ((heartbeat s wid req now).2).map (fun r => r.status)
      = some (if w.status = "draining" then "draining" else "online") ∧
    (findWorker (heartbeat s wid req now).1 wid).map (fun x => x.status)
      = some (if w.status = "draining" then "draining" else "online") := by
  have h := heartbeat_unfold s wid req now w hw
  have hst : (heartbeatUpdate req now w).status
      = (if w.status = "draining" then "draining" else "online") := by
    show (if (w.status == "draining") = true then "draining" else "online") = _
    by_cases hd : w.status = "draining"
    · rw [if_pos (by simp [hd]), if_pos hd]
    · rw [if_neg (by simpa using hd), if_neg hd]
  constructor
  · rw [h]
    show some ((heartbeatUpdate req now w).status) = _
    rw [hst]
  · rw [h]
    unfold findWorker
    show ((s.workers.map (fun a => if a.id == wid then heartbeatUpdate req now a else a)).find?
        (fun x => x.id == wid)).map (fun x => x.status) = _
    have hfind := find_condMap (fun a => a.id == wid) (heartbeatUpdate req now)
      (fun a ha => ha) s.workers
    unfold findWorker at hw
    rw [hw] at hfind
    rw [hfind]
    show some ((heartbeatUpdate req now w).status) = _
    rw [hst]

/-- C7 witness: a heartbeat on a draining worker leaves the reported status
`draining`. -/
theorem heartbeat_preserves_draining_witness :
    ((heartbeat ⟨[wDrainingStale], [], []⟩ 1 ⟨0, "healthy"⟩ 50).2).map
      (fun r => r.status) = some "draining" := by
  have h := (heartbeat_preserves_draining ⟨[wDrainingStale], [], []⟩ 1 ⟨0, "healthy"⟩ 50
    wDrainingStale rfl).1
  rw [h]
  rfl

/-- C8 (confirmed): the heartbeat response reports `has_work = true` iff a
build row with this worker's id and status `queued` exists, the post-update
status is `online`, and the reported `current_builds` is strictly below the
row's `max_concurrent_builds`. -/
theorem heartbeat_hasWork_iff (s : Store) (wid : Nat) (req : HeartbeatReq) (now : Nat)
    (w : WorkerRow) (hw : findWorker s wid = some w) :
    (((heartbeat s wid req now).2).map (fun r => r.hasWork) = some true) ↔
      (hasQueuedBuild s.builds wid = true ∧
       ((heartbeat s wid req now).2).map (fun r => r.status) = some "online" ∧
       req.currentBuilds < w.maxConcurrentBuilds) := by
  have h := heartbeat_unfold s wid req now w hw
  rw [h]
  show (some (if (heartbeatUpdate req now w).currentBuilds
          < (heartbeatUpdate req now w).maxConcurrentBuilds
        && (heartbeatUpdate req now w).status == "online"
      then hasQueuedBuild s.builds wid else false) = some true) ↔
    (hasQueuedBuild s.builds wid = true ∧
     some ((heartbeatUpdate req now w).status) = some "online" ∧
     req.currentBuilds < w.maxConcurrentBuilds)
  have hcb : (heartbeatUpdate req now w).currentBuilds = req.currentBuilds := rfl
  have hmx : (heartbeatUpdate req now w).maxConcurrentBuilds = w.maxConcurrentBuilds := rfl
  constructor
  · intro hcond
    by_cases hc : ((heartbeatUpdate req now w).currentBuilds
        < (heartbeatUpdate req now w).maxConcurrentBuilds
        && (heartbeatUpdate req now w).status == "online") = true
    · rw [if_pos hc] at hcond
      rw [Bool.and_eq_true] at hc
      refine ⟨by simpa using hcond, ?_, by rw [← hcb, ← hmx]; simpa using hc.1⟩
      have : (heartbeatUpdate req now w).status = "online" := by simpa using hc.2
      rw [this]
    · rw [if_neg hc] at hcond
      exact absurd hcond (by simp)
  · rintro ⟨hq, hst, hlt⟩
    have hst2 : (heartbeatUpdate req now w).status = "online" := by
      simpa using hst
    rw [if_pos (by rw [Bool.and_eq_true]
                   exact ⟨by rw [hcb, hmx]; simpa using hlt, by simp [hst2]⟩)]
    rw [hq]

/-- C8 witness: with a queued build pre-assigned to worker 1 and a free online
worker, the heartbeat response advertises work. -/
theorem heartbeat_hasWork_iff_witness :
    ((heartbeat ⟨[wOnline], [bQueuedOn1], []⟩ 1 ⟨0, "healthy"⟩ 50).2).map
      (fun r => r.hasWork) = some true := by
  apply (heartbeat_hasWork_iff ⟨[wOnline], [bQueuedOn1], []⟩ 1 ⟨0, "healthy"⟩ 50
    wOnline rfl).mpr
  refine ⟨rfl, rfl, by decide⟩

/-- C10 (confirmed): cancelling succeeds (200) exactly when a build row with
the given id exists whose prior status is `queued` or `running`; every such
row is rewritten to `status='cancelled'` with `completed_at=now` and no other
field changes, every other row is untouched, and when the cancel fails the
store is entirely unchanged. -/
theorem cancelBuild_spec (s : Store) (bid now : Nat) :
    ((cancelBuild s bid now).2 = 200 ↔
      ∃ b ∈ s.builds, b.id = bid ∧ (b.status = "queued" ∨ b.status = "running")) ∧
    (∀ i (h1 : i < s.builds.length) (h2 : i < (cancelBuild s bid now).1.builds.length),
      (cancelBuild s bid now).1.builds.get ⟨i, h2⟩ =
        if (s.builds.get ⟨i, h1⟩).id = bid ∧
           ((s.builds.get ⟨i, h1⟩).status = "queued" ∨
            (s.builds.get ⟨i, h1⟩).status = "running")
        then { s.builds.get ⟨i, h1⟩ with status := "cancelled", completedAt := some now }
        else s.builds.get ⟨i, h1⟩) ∧
    ((cancelBuild s bid now).2 ≠ 200 → (cancelBuild s bid now).1 = s) := by
  have hpred : ∀ b : BuildRow, ((b.id == bid && cancelActive b) = true)
      ↔ (b.id = bid ∧ (b.status = "queued" ∨ b.status = "running")) := by
    intro b
    unfold cancelActive
    rw [Bool.and_eq_true, Bool.or_eq_true]
    simp [beq_iff_eq]
  refine ⟨?_, ?_, ?_⟩
  · show (if (s.builds.countP (fun b => b.id == bid && cancelActive b) == 0) = true
        then (404 : Nat) else 200) = 200 ↔ _
    constructor
    · intro h
      by_cases hz : (s.builds.countP (fun b => b.id == bid && cancelActive b) == 0) = true
      · rw [if_pos hz] at h
        exact absurd h (by simp)
      · have hpos : 0 < s.builds.countP (fun b => b.id == bid && cancelActive b) := by
          have h2 := hz
          simp only [beq_iff_eq] at h2
          omega
        rcases List.countP_pos.mp hpos with ⟨b, hbmem, hbp⟩
        exact ⟨b, hbmem, (hpred b).mp hbp⟩
    · rintro ⟨b, hbmem, hbp⟩
      have hpos : 0 < s.builds.countP (fun b => b.id == bid && cancelActive b) :=
        List.countP_pos.mpr ⟨b, hbmem, (hpred b).mpr hbp⟩
      have hne : ¬((s.builds.countP (fun b => b.id == bid && cancelActive b) == 0) = true) := by
        simp only [beq_iff_eq]
        omega
      rw [if_neg hne]
  · intro i h1 h2
    have h2b : i < (s.builds.map (fun b => if b.id == bid && cancelActive b
        then { b with status := "cancelled", completedAt := some now } else b)).length := h2
    have hmapget : (s.builds.map (fun b => if b.id == bid && cancelActive b
        then { b with status := "cancelled", completedAt := some now } else b)).get ⟨i, h2b⟩
        = (if ((s.builds.get ⟨i, h1⟩).id == bid && cancelActive (s.builds.get ⟨i, h1⟩))
            then { s.builds.get ⟨i, h1⟩ with status := "cancelled", completedAt := some now }
            else s.builds.get ⟨i, h1⟩) := by
      simp [List.get_map]
    have hget : (cancelBuild s bid now).1.builds.get ⟨i, h2⟩
        = (if ((s.builds.get ⟨i, h1⟩).id == bid && cancelActive (s.builds.get ⟨i, h1⟩))
            then { s.builds.get ⟨i, h1⟩ with status := "cancelled", completedAt := some now }
            else s.builds.get ⟨i, h1⟩) := hmapget
    rw [hget]
    by_cases hc : ((s.builds.get ⟨i, h1⟩).id == bid
        && cancelActive (s.builds.get ⟨i, h1⟩)) = true
    · rw [if_pos hc, if_pos ((hpred _).mp hc)]
    · rw [if_neg hc, if_neg (fun hcon => hc ((hpred _).mpr hcon))]
  · intro h
    have hz : s.builds.countP (fun b => b.id == bid && cancelActive b) = 0 := by
      by_contra hnz
      apply h
      have hne : ¬((s.builds.countP (fun b => b.id == bid && cancelActive b) == 0) = true) := by
        simp only [beq_iff_eq]
        exact hnz
      show (if (s.builds.countP (fun b => b.id == bid && cancelActive b) == 0) = true
          then (404 : Nat) else 200) = 200
      rw [if_neg hne]
    have hall : ∀ b ∈ s.builds, ¬((b.id == bid && cancelActive b) = true) :=
      List.countP_eq_zero.mp hz
    have hmap : s.builds.map (fun b => if b.id == bid && cancelActive b
        then { b with status := "cancelled", completedAt := some now } else b) = s.builds := by
      apply map_id_of_mem
      intro b hb
      rw [if_neg (hall b hb)]
    show { s with builds := s.builds.map (fun b => if b.id == bid && cancelActive b
        then { b with status := "cancelled", completedAt := some now } else b) } = s
    rw [hmap]

/-- C10 witness: cancelling the queued build 1 succeeds with 200. -/
theorem cancelBuild_spec_witness :
    (cancelBuild ⟨[], [bQueued], []⟩ 1 5).2 = 200 :=
  (cancelBuild_spec ⟨[], [bQueued], []⟩ 1 5).1.mpr
    ⟨bQueued, by simp, rfl, Or.inl rfl⟩

/-- C9 (confirmed): registration is idempotent by worker name.  On a store
with at most one row of the given (non-empty) name, two successive
`Register(name, X)` calls return the same `(id, registered_at)` pair, leave
exactly one row with that name, and that row carries every request attribute
(with the defaulted capacity), `status='online'`, and a `last_heartbeat`
bumped to the second call's time — while `registered_at` is the one from the
first call, never refreshed. -/
theorem register_idempotent (s : Store) (req : RegisterReq) (fid1 fid2 now1 now2 : Nat)
    (hname : req.name ≠ "")
    (huniq : s.workers.countP (fun w => w.name == req.name) ≤ 1) :
    ∃ p : Nat × Nat,
      (registerWorker s req fid1 now1).2 = some p ∧
      (registerWorker (registerWorker s req fid1 now1).1 req fid2 now2).2 = some p ∧
      ((registerWorker (registerWorker s req fid1 now1).1 req fid2 now2).1).workers.countP
        (fun w => w.name == req.name) = 1 ∧
      ∃ w2 : WorkerRow,
        ((registerWorker (registerWorker s req fid1 now1).1 req fid2 now2).1).workers.find?
          (fun w => w.name == req.name) = some w2 ∧
        w2.id = p.1 ∧ w2.registeredAt = p.2 ∧
        w2.hostname = req.hostname ∧ w2.ipAddress = req.ipAddress ∧
        w2.maxConcurrentBuilds = defaultedMax req ∧
        w2.cpuCores = req.cpuCores ∧ w2.memoryMB = req.memoryMB ∧
        w2.labels = req.labels ∧ w2.capabilities = req.capabilities ∧
        w2.agentVersion = req.agentVersion ∧
        w2.status = "online" ∧ w2.lastHeartbeat = some now2 := by
  have hnb : ¬((req.name == "") = true) := fun hcon => hname (by simpa using hcon)
  have hkey1 : ∀ a : WorkerRow, ((a.name == req.name) = true) →
      (((refreshWorker req (defaultedMax req) now1 a).name == req.name) = true) :=
    fun a ha => ha
  have hkey2 : ∀ a : WorkerRow, ((a.name == req.name) = true) →
      (((refreshWorker req (defaultedMax req) now2 a).name == req.name) = true) :=
    fun a ha => ha
  cases hfind : s.workers.find? (fun w => w.name == req.name) with
  | some w0 =>
    have h1 : registerWorker s req fid1 now1
        = ({ s with workers := s.workers.map (fun ww =>
              if ww.name == req.name then refreshWorker req (defaultedMax req) now1 ww
              else ww) },
           some (w0.id, w0.registeredAt)) := by
      unfold registerWorker
      rw [if_neg hnb, hfind]
    have hfind1 := find_condMap (fun a => a.name == req.name)
      (refreshWorker req (defaultedMax req) now1) hkey1 s.workers
    rw [hfind] at hfind1
    have hfind1b : (s.workers.map (fun ww =>
        if ww.name == req.name then refreshWorker req (defaultedMax req) now1 ww
        else ww)).find? (fun w => w.name == req.name)
        = some (refreshWorker req (defaultedMax req) now1 w0) := hfind1
    refine ⟨(w0.id, w0.registeredAt), ?_, ?_, ?_, ?_⟩
    · rw [h1]
    · rw [h1]
      dsimp only
      unfold registerWorker
      rw [if_neg hnb, hfind1b]
      rfl
    · rw [h1]
      dsimp only
      unfold registerWorker
      rw [if_neg hnb, hfind1b]
      dsimp only
      rw [countP_condMap _ _ hkey2, countP_condMap _ _ hkey1]
      have hp0 := List.find?_some hfind
      have hmem : w0 ∈ s.workers := List.mem_of_find?_eq_some hfind
      have hpos : 0 < s.workers.countP (fun w => w.name == req.name) :=
        List.countP_pos.mpr ⟨w0, hmem, hp0⟩
      omega
    · refine ⟨refreshWorker req (defaultedMax req) now2
          (refreshWorker req (defaultedMax req) now1 w0),
        ?_, rfl, rfl, rfl, rfl, rfl, rfl, rfl, rfl, rfl, rfl, rfl, rfl⟩
      rw [h1]
      dsimp only
      unfold registerWorker
      rw [if_neg hnb, hfind1b]
      dsimp only
      have hfind2c := find_condMap (fun a => a.name == req.name)
        (refreshWorker req (defaultedMax req) now2) hkey2
        (s.workers.map (fun ww =>
          if ww.name == req.name then refreshWorker req (defaultedMax req) now1 ww
          else ww))
      rw [hfind1b] at hfind2c
      exact hfind2c
  | none =>
    have h1 : registerWorker s req fid1 now1
        = ({ s with workers := s.workers
              ++ [newWorker req (defaultedMax req) fid1 now1] },
           some (fid1, now1)) := by
      unfold registerWorker
      rw [if_neg hnb, hfind]
    have hpnw : ((newWorker req (defaultedMax req) fid1 now1).name == req.name) = true :=
      beq_self_eq_true req.name
    have hfindap : (s.workers ++ [newWorker req (defaultedMax req) fid1 now1]).find?
        (fun w => w.name == req.name)
        = some (newWorker req (defaultedMax req) fid1 now1) := by
      rw [find_append_none _ _ _ hfind]
      exact List.find?_cons_of_pos _ hpnw
    refine ⟨(fid1, now1), ?_, ?_, ?_, ?_⟩
    · rw [h1]
    · rw [h1]
      dsimp only
      unfold registerWorker
      rw [if_neg hnb, hfindap]
      rfl
    · rw [h1]
      dsimp only
      unfold registerWorker
      rw [if_neg hnb, hfindap]
      dsimp only
      rw [countP_condMap _ _ hkey2]
      rw [List.countP_append]
      have hz : s.workers.countP (fun w => w.name == req.name) = 0 :=
        List.countP_eq_zero.mpr (List.find?_eq_none.mp hfind)
      rw [hz]
      simp [List.countP_cons, hpnw]
    · refine ⟨refreshWorker req (defaultedMax req) now2
          (newWorker req (defaultedMax req) fid1 now1),
        ?_, rfl, rfl, rfl, rfl, rfl, rfl, rfl, rfl, rfl, rfl, rfl, rfl⟩
      rw [h1]
      dsimp only
      unfold registerWorker
      rw [if_neg hnb, hfindap]
      dsimp only
      have hfind2c := find_condMap (fun a => a.name == req.name)
        (refreshWorker req (defaultedMax req) now2) hkey2
        (s.workers ++ [newWorker req (defaultedMax req) fid1 now1])
      rw [hfindap] at hfind2c
      exact hfind2c

/-- C9 witness: registering `w1` twice on an empty store leaves exactly one
row named `w1`. -/
theorem register_idempotent_witness :
    ((registerWorker (registerWorker ⟨[], [], []⟩ rqW1 7 10).1 rqW1 8 20).1).workers.countP
      (fun w => w.name == "w1") = 1 := by
  obtain ⟨p, h1, h2, h3, hrest⟩ :=
    register_idempotent ⟨[], [], []⟩ rqW1 7 8 10 20 (by decide) (by decide)
  exact h3

end Solvyd
